import Mathlib

/-!
Shallow embedding of the pharmacy substitution engine
(the `SubstitutionEngine` class of `src/src/App.tsx`, i.e. the
`services/substitutionEngine` module, together with the record types of
`types/pharmacy.ts`).  Strings stay Lean `String`s, the integer confidence
scores are `Int`, and parsed dosage strengths are exact rationals `ℚ`.
-/

namespace SubstitutionEngineModel

/-- Embedding of `String.prototype.toLowerCase`; the engine only compares
pharmaceutical names, so the ASCII case mapping is the relevant fragment. -/
def lower (s : String) : String := String.mk (s.data.map Char.toLower)

/-- Embedding of the `Drug` interface (`types/pharmacy.ts`).  Only the fields
the substitution engine reads are carried; the remaining interface fields
(barcode, batch, pricing, timestamps, audit fields) are never touched by any
engine code path. -/
structure Drug where
  id : String
  name : String
  genericName : String
  brandName : String
  activeMolecule : String
  dosage : String
  dosageForm : String
  strength : String
  manufacturer : String
  category : String
  isControlled : Bool
  requiresPrescription : Bool
  stockLevel : Int
  deriving DecidableEq, Repr

/-- Embedding of the `SubstitutionRule` interface (`types/pharmacy.ts`);
`notes` is optional there, hence `Option String` here. -/
structure SubstitutionRule where
  id : String
  activeMolecule : String
  dosage : String
  dosageForm : String
  equivalentDrugs : List String
  substitutionRatio : ℚ
  notes : Option String
  isActive : Bool
  deriving DecidableEq, Repr

/-- The `matchType` union `'exact' | 'equivalent' | 'similar'`. -/
inductive MatchType where
  | exact
  | equivalent
  | similar
  deriving DecidableEq, Repr

/-- Embedding of the `SubstitutionSuggestion` interface; `dosageAdjustment`
and `warnings` are optional fields. -/
structure SubstitutionSuggestion where
  drug : Drug
  matchType : MatchType
  confidence : Int
  reason : String
  dosageAdjustment : Option String := none
  warnings : Option (List String) := none
  deriving DecidableEq, Repr

/-! ### `parseStrength` — the dosage regex

`parseStrength` matches `/(\d+(?:\.\d+)?)\s*(mg|g|ml|mcg|µg)/i` against the
dosage string, converts the captured number with `parseFloat`, and
normalises the unit to milligrams. -/

/-- The whitespace characters of the regex class `\s` that can occur in a
dosage string. -/
def isSpaceChar (c : Char) : Bool :=
  c == ' ' || c == '\t' || c == '\n' || c == '\r' || c == '\x0b' || c == '\x0c'

/-- Numeric value of a run of decimal digits. -/
def digitsToNat (ds : List Char) : Nat :=
  ds.foldl (fun n c => 10 * n + (c.toNat - 48)) 0

/-- Value of `parseFloat` applied to the capture `\d+(?:\.\d+)?`, split into integer
part and fractional part. -/
def numValue (intPart fracPart : List Char) : ℚ :=
  (digitsToNat intPart : ℚ) + (digitsToNat fracPart : ℚ) / (10 : ℚ) ^ fracPart.length

/-- The unit alternatives `(mg|g|ml|mcg|µg)`, in alternation order. -/
def unitAlts : List (List Char) :=
  [['m', 'g'], ['g'], ['m', 'l'], ['m', 'c', 'g'], ['µ', 'g']]

/-- Case-insensitive match of a unit alternative at the head of `cs`; the
regex alternation tries the alternatives left to right and the matched text
is lowercased by `match[2].toLowerCase()` before the unit switch, so the
canonical lowercase alternative is returned. -/
def matchUnit (cs : List Char) : Option (List Char) :=
  unitAlts.find? (fun u => u.isPrefixOf (cs.map Char.toLower))

/-- The `switch (unit)` milligram normalisation of `parseStrength`:
`g` multiplies by 1000, `mcg`/`µg` divide by 1000, `ml` and `mg` (and the
unreachable default branch) leave the value unchanged. -/
def applyUnit (v : ℚ) (u : List Char) : ℚ :=
  if u = ['g'] then v * 1000
  else if u = ['m', 'c', 'g'] ∨ u = ['µ', 'g'] then v / 1000
  else v

/-- The two captures of the dosage regex: the number capture `\d+(?:\.\d+)?`
split into integer and fractional digits (`match[1]`), and the lowercased
unit capture (`match[2]`). -/
structure StrengthMatch where
  intPart : List Char
  fracPart : List Char
  unit : List Char
  deriving DecidableEq, Repr

/-- Match of the dosage regex anchored at the head of `cs`.  The greedy
reading is exact for this pattern: shrinking `\d+` (or the `\d+` of the
fractional group) leaves a digit where a dot, whitespace or unit letter
would be required, and dropping a present fractional group leaves a dot
where whitespace or a unit letter would be required, so the regex engine's
backtracking can never succeed where the greedy parse fails. -/
def matchAt (cs : List Char) : Option StrengthMatch :=
  let intPart := cs.takeWhile Char.isDigit
  if intPart.isEmpty then none
  else
    let rest1 := cs.drop intPart.length
    let fracAndRest :=
      match rest1 with
      | '.' :: r =>
        let fs := r.takeWhile Char.isDigit
        if fs.isEmpty then (([] : List Char), rest1) else (fs, r.drop fs.length)
      | _ => (([] : List Char), rest1)
    let rest3 := fracAndRest.2.dropWhile isSpaceChar
    (matchUnit rest3).map (fun u => ⟨intPart, fracAndRest.1, u⟩)

/-- Leftmost match: `String.prototype.match` tries every start position left
to right. -/
def scanStrength : List Char → Option StrengthMatch
  | [] => none
  | c :: rest =>
    match matchAt (c :: rest) with
    | some m => some m
    | none => scanStrength rest

/-- Value of `parseFloat` on the number capture followed by the unit switch. -/
def strengthValue (m : StrengthMatch) : ℚ :=
  applyUnit (numValue m.intPart m.fracPart) m.unit

/-- Embedding of `parseStrength`: milligram-normalised numeric strength of a
dosage string, `none` when the regex has no match. -/
def parseStrength (dosage : String) : Option ℚ :=
  (scanStrength dosage.toList).map strengthValue

/-! ### Scoring helpers -/

/-- The `+10` dosage-form bonus of `calculateEquivalentConfidence`. -/
def formBonus (target candidate : Drug) : Int :=
  if lower target.dosageForm = lower candidate.dosageForm then 10 else 0

/-- The dosage-similarity bonus of `calculateEquivalentConfidence`.  The
source guards with `if (targetStrength && candidateStrength)`: a strength
that parses to `0` is falsy in JS exactly like a failed (`null`) parse, so
the bonus is skipped and the ratio `min/max` is never formed from two
zeros. -/
def strengthBonus (target candidate : Drug) : Int :=
  match parseStrength target.dosage, parseStrength candidate.dosage with
  | some a, some b =>
    if a ≠ 0 ∧ b ≠ 0 then ⌊(min a b / max a b) * 10⌋ else 0
  | _, _ => 0

/-- The `+5` brand/generic bonus of `calculateEquivalentConfidence`
(`target.brandName && candidate.brandName`: a JS string is truthy exactly
when non-empty). -/
def brandBonus (target candidate : Drug) : Int :=
  if target.brandName ≠ "" ∧ candidate.brandName ≠ "" then 5
  else if target.brandName = "" ∧ candidate.brandName = "" then 5
  else 0

/-- Embedding of `calculateEquivalentConfidence`: base 80, the three bonuses
in source order, then `Math.min(confidence, 90)`. -/
def calculateEquivalentConfidence (target candidate : Drug) : Int :=
  min (80 + formBonus target candidate + strengthBonus target candidate
        + brandBonus target candidate) 90

/-- Embedding of `Number.prototype.toFixed(1)` on a positive rational: round half up to
one decimal place. -/
def toFixed1 (q : ℚ) : String :=
  let n : Int := ⌊q * 10 + 1 / 2⌋
  toString (n / 10) ++ "." ++ toString (n % 10)

/-- Embedding of `calculateDosageAdjustment`.  The guard
`if (!targetStrength || !candidateStrength) return undefined` also fires on
a parsed strength of `0` (falsy), so `target/candidate` is never formed
with a zero divisor. -/
def calculateDosageAdjustment (target candidate : Drug) : Option String :=
  match parseStrength target.dosage, parseStrength candidate.dosage with
  | some a, some b =>
    if a = 0 ∨ b = 0 then none
    else
      let ratio := a / b
      if ratio = 1 then none
      else if 1 < ratio then
        some ("Take " ++ toFixed1 ratio ++ "x the usual dose (" ++ candidate.dosage
          ++ " → equivalent to " ++ target.dosage ++ ")")
      else
        some ("Take " ++ toFixed1 (1 / ratio) ++ "x less (" ++ candidate.dosage
          ++ " → equivalent to " ++ target.dosage ++ ")")
  | _, _ => none

/-- Substring test embedding `String.prototype.includes` on character
lists. -/
def containsSub : List Char → List Char → Bool
  | [], sub => sub.isPrefixOf []
  | c :: t, sub => sub.isPrefixOf (c :: t) || containsSub t sub

/-- Embedding of `getSubstitutionWarnings`: the three independent pushes, in
source order. -/
def getSubstitutionWarnings (target candidate : Drug) : List String :=
  (if lower target.dosageForm ≠ lower candidate.dosageForm then
    ["Different dosage form: " ++ target.dosageForm ++ " → " ++ candidate.dosageForm]
  else []) ++
  (if target.isControlled || candidate.isControlled then
    ["Controlled substance - verify prescription requirements"]
  else []) ++
  (if target.manufacturer ≠ candidate.manufacturer
      ∧ containsSub (lower target.category).toList "cardiac".toList then
    ["Different manufacturer - monitor patient response"]
  else [])

/-- The `.toLowerCase().replace(/[^a-z]/g, '')` cleanup of
`haveSimilarNames`: lowercase, then keep only `a`–`z`. -/
def cleanName (s : String) : List Char :=
  (s.toList.map Char.toLower).filter (fun c => 'a' ≤ c && c ≤ 'z')

/-- Embedding of `haveSimilarNames`: either cleaned name contains the first
four characters (`substring(0, 4)`, i.e. `List.take 4`) of the other. -/
def haveSimilarNames (name1 name2 : String) : Bool :=
  let clean1 := cleanName name1
  let clean2 := cleanName name2
  containsSub clean1 (clean2.take 4) || containsSub clean2 (clean1.take 4)

/-- The `+20` dosage-form bonus of `calculateTherapeuticSimilarity`. -/
def similarFormBonus (target candidate : Drug) : Int :=
  if lower target.dosageForm = lower candidate.dosageForm then 20 else 0

/-- The `+15` generic-name bonus of `calculateTherapeuticSimilarity`. -/
def similarNameBonus (target candidate : Drug) : Int :=
  if haveSimilarNames target.genericName candidate.genericName then 15 else 0

/-- Embedding of `calculateTherapeuticSimilarity`: base 40, the two bonuses,
then `Math.min(similarity, 75)`. -/
def calculateTherapeuticSimilarity (target candidate : Drug) : Int :=
  min (40 + similarFormBonus target candidate + similarNameBonus target candidate) 75

/-- Embedding of `findSimilarByTherapeuticClass`: same category
(case-insensitive), different active molecule (case-insensitive), scored,
then the `similarity >= 30` threshold filter. -/
def findSimilarByTherapeuticClass (target : Drug) (pool : List Drug) :
    List (Drug × Int) :=
  ((pool.filter (fun drug =>
      decide (lower drug.category = lower target.category) &&
      decide (lower drug.activeMolecule ≠ lower target.activeMolecule))).map
    (fun drug => (drug, calculateTherapeuticSimilarity target drug))).filter
    (fun item => decide (30 ≤ item.2))

/-! ### The four passes of `findSubstitutes` -/

/-- The candidate pool of `findSubstitutes`: stock filter only when
`availableOnly`, and the target's own identifier always excluded. -/
def searchPool (drugs : List Drug) (targetDrug : Drug) (availableOnly : Bool) :
    List Drug :=
  if availableOnly then
    drugs.filter (fun drug =>
      decide (0 < drug.stockLevel) && decide (drug.id ≠ targetDrug.id))
  else
    drugs.filter (fun drug => decide (drug.id ≠ targetDrug.id))

/-- The Pass-1 qualification predicate (`exactMatches` filter). -/
def isExactMatch (targetDrug drug : Drug) : Bool :=
  decide (lower drug.activeMolecule = lower targetDrug.activeMolecule) &&
  decide (drug.dosage = targetDrug.dosage) &&
  decide (lower drug.dosageForm = lower targetDrug.dosageForm)

/-- The suggestion pushed for each Pass-1 match. -/
def mkExactSuggestion (drug : Drug) : SubstitutionSuggestion :=
  { drug,
    matchType := .exact,
    confidence := 95,
    reason := "Same active molecule (" ++ drug.activeMolecule ++ "), dosage ("
      ++ drug.dosage ++ "), and form (" ++ drug.dosageForm ++ ")" }

/-- Pass-1 output. -/
def exactSuggestions (targetDrug : Drug) (pool : List Drug) :
    List SubstitutionSuggestion :=
  (pool.filter (isExactMatch targetDrug)).map mkExactSuggestion

/-- The Pass-2 filter.  `!exactMatches.includes(drug)` is a reference-
membership test against `searchPool.filter(isExactMatch)`; for a `drug`
drawn from the same pool it holds exactly when `drug` is in that filtered
list, which list membership over the embedded records expresses. -/
def equivalentMatches (targetDrug : Drug) (pool : List Drug) : List Drug :=
  pool.filter (fun drug =>
    decide (lower drug.activeMolecule = lower targetDrug.activeMolecule) &&
    !(decide (drug ∈ pool.filter (isExactMatch targetDrug))))

/-- The suggestion pushed for each Pass-2 match. -/
def mkEquivalentSuggestion (targetDrug drug : Drug) : SubstitutionSuggestion :=
  { drug,
    matchType := .equivalent,
    confidence := calculateEquivalentConfidence targetDrug drug,
    reason := "Same active molecule (" ++ drug.activeMolecule ++ ") with "
      ++ drug.dosage ++ " " ++ drug.dosageForm,
    dosageAdjustment := calculateDosageAdjustment targetDrug drug,
    warnings := some (getSubstitutionWarnings targetDrug drug) }

/-- Pass-2 output. -/
def equivalentSuggestions (targetDrug : Drug) (pool : List Drug) :
    List SubstitutionSuggestion :=
  (equivalentMatches targetDrug pool).map (mkEquivalentSuggestion targetDrug)

/-- Pass-3 output: each `{drug, similarity}` item becomes a `similar`
suggestion with the fixed single warning. -/
def similarSuggestions (targetDrug : Drug) (pool : List Drug) :
    List SubstitutionSuggestion :=
  (findSimilarByTherapeuticClass targetDrug pool).map (fun item =>
    { drug := item.1,
      matchType := .similar,
      confidence := item.2,
      reason := "Similar therapeutic class (" ++ item.1.category ++ ")",
      warnings := some ["Different active molecule - consult pharmacist before substitution"] })

/-- Embedding of `rule.notes || 'Pharmacy-approved equivalent'` (an absent or empty notes
string is falsy). -/
def ruleReason (rule : SubstitutionRule) : String :=
  "Custom substitution rule: " ++
    match rule.notes with
    | some n => if n = "" then "Pharmacy-approved equivalent" else n
    | none => "Pharmacy-approved equivalent"

/-- The suggestion pushed for each resolved rule-listed identifier. -/
def mkRuleSuggestion (rule : SubstitutionRule) (drug : Drug) :
    SubstitutionSuggestion :=
  { drug,
    matchType := .equivalent,
    confidence := 85,
    reason := ruleReason rule,
    dosageAdjustment :=
      if rule.substitutionRatio ≠ 1 then
        some ("Adjust dose by factor of " ++ toString rule.substitutionRatio)
      else none }

/-- Embedding of `applySubstitutionRules`: active rules whose (molecule,
dosage, form) key matches the target, each listed identifier resolved
against the pool with `find?`, unresolved identifiers silently skipped. -/
def applySubstitutionRules (rules : List SubstitutionRule) (target : Drug)
    (pool : List Drug) : List SubstitutionSuggestion :=
  ((rules.filter (fun rule =>
      rule.isActive &&
      decide (lower rule.activeMolecule = lower target.activeMolecule) &&
      decide (rule.dosage = target.dosage) &&
      decide (lower rule.dosageForm = lower target.dosageForm))).map
    (fun rule =>
      rule.equivalentDrugs.filterMap (fun drugId =>
        (pool.find? (fun d => decide (d.id = drugId))).map (mkRuleSuggestion rule)))).flatten

/-! ### Merge, dedup, sort, and the engine class -/

/-- The `seen`-set filter of `deduplicateAndSort`: keep the first suggestion
for each drug identifier. -/
def dedupFirstAux (seen : List String) :
    List SubstitutionSuggestion → List SubstitutionSuggestion
  | [] => []
  | s :: rest =>
    if s.drug.id ∈ seen then dedupFirstAux seen rest
    else s :: dedupFirstAux (s.drug.id :: seen) rest

/-- The order of the comparator `(a, b) => b.confidence - a.confidence`:
`a` may precede `b` exactly when `a.confidence ≥ b.confidence`. -/
def confGE (a b : SubstitutionSuggestion) : Prop :=
  b.confidence ≤ a.confidence

instance : DecidableRel confGE := fun _ _ => Int.decLe _ _

/-- Embedding of `deduplicateAndSort`: dedup keeping first occurrence, then
`Array.prototype.sort` with the descending-confidence comparator.
ECMA-262 requires `sort` to be stable, and a stable sort against a total
preorder has a unique result, here realised by insertion sort. -/
def deduplicateAndSort (suggestions : List SubstitutionSuggestion) :
    List SubstitutionSuggestion :=
  List.insertionSort confGE (dedupFirstAux [] suggestions)

/-- The engine class state: the bound drug catalog and rule set.  The
constructor default for `rules` is the empty list. -/
structure SubstitutionEngine where
  drugs : List Drug
  substitutionRules : List SubstitutionRule := []
  deriving Repr

/-- Embedding of `updateData(drugs, rules = [])`: both fields are replaced,
the previous state is discarded. -/
def updateData (_engine : SubstitutionEngine) (drugs : List Drug)
    (rules : List SubstitutionRule := []) : SubstitutionEngine :=
  { drugs, substitutionRules := rules }

/-- The concatenation of the four passes' outputs, in push order (exact,
equivalent, similar, rule-based) — the `suggestions` array of
`findSubstitutes` just before `deduplicateAndSort`. -/
def allPassSuggestions (engine : SubstitutionEngine) (targetDrug : Drug)
    (availableOnly : Bool) : List SubstitutionSuggestion :=
  let pool := searchPool engine.drugs targetDrug availableOnly
  exactSuggestions targetDrug pool ++
    equivalentSuggestions targetDrug pool ++
    similarSuggestions targetDrug pool ++
    applySubstitutionRules engine.substitutionRules targetDrug pool

/-- Embedding of `findSubstitutes`. -/
def findSubstitutes (engine : SubstitutionEngine) (targetDrug : Drug)
    (availableOnly : Bool := true) : List SubstitutionSuggestion :=
  deduplicateAndSort (allPassSuggestions engine targetDrug availableOnly)

/-- The spec's error taxonomy for the engine. -/
inductive EngineError where
  | invalidInput
  deriving DecidableEq, Repr

/-- Modelled from the spec: `src/` contains no explicit `InvalidInput`
validation — the TypeScript signature types the target as a non-null
`Drug`, and the UI caller guards a null target before ever invoking the
engine.  The spec's contract (`InvalidInput` — target drug missing;
fails fast, no suggestions computed) is modelled by taking the target as
an `Option Drug` and failing on `none`. -/
def findSubstitutesChecked (engine : SubstitutionEngine) (target : Option Drug)
    (availableOnly : Bool) : Except EngineError (List SubstitutionSuggestion) :=
  match target with
  | none => .error .invalidInput
  | some t => .ok (findSubstitutes engine t availableOnly)

/-- The dosage-similarity bonus as the specification words it: the floored
scaled ratio is added whenever both strengths parse, with no separate
provision for a parsed strength of zero.  Stated for comparison with the
source's `strengthBonus`. -/
def specStrengthBonus (target candidate : Drug) : Int :=
  match parseStrength target.dosage, parseStrength candidate.dosage with
  | some a, some b => ⌊(min a b / max a b) * 10⌋
  | _, _ => 0

/-! ### Concrete inputs used to witness the theorems -/

/-- A sample target drug. -/
def exTarget : Drug :=
  { id := "t", name := "T", genericName := "g", brandName := "",
    activeMolecule := "a", dosage := "1", dosageForm := "x", strength := "",
    manufacturer := "m", category := "p", isControlled := false,
    requiresPrescription := false, stockLevel := 5 }

/-- A candidate identical to `exTarget` up to identifier: a Pass-1 match. -/
def exCandidate : Drug :=
  { exTarget with id := "c", name := "C" }

/-- An engine bound to the one-candidate catalog and no rules. -/
def exEngine : SubstitutionEngine :=
  { drugs := [exCandidate] }

/-- The suggestion `findSubstitutes exEngine exTarget` produces. -/
def exExactSuggestion : SubstitutionSuggestion :=
  mkExactSuggestion exCandidate

/-- A candidate in `exTarget`'s category with a different active molecule:
a Pass-3 match. -/
def simCandidate : Drug :=
  { exCandidate with activeMolecule := "b" }

/-- The Pass-3 suggestion for `simCandidate` against `exTarget`. -/
def exSimilarSuggestion : SubstitutionSuggestion :=
  { drug := simCandidate,
    matchType := .similar,
    confidence := 75,
    reason := "Similar therapeutic class (p)",
    warnings := some ["Different active molecule - consult pharmacist before substitution"] }

/-- A target whose dosage string has no regex match. -/
def adhocTarget : Drug :=
  { exTarget with dosage := "as needed" }

/-- A target whose dosage parses to the strength `0`. -/
def zeroTarget : Drug :=
  { exTarget with dosage := "0mg" }

/-- A target whose generic name has no letters. -/
def noLetterTarget : Drug :=
  { exTarget with genericName := "123" }

/-! ### Lemmas about the stable sort -/

instance : IsTotal SubstitutionSuggestion confGE :=
  ⟨fun a b => le_total b.confidence a.confidence⟩

instance : IsTrans SubstitutionSuggestion confGE :=
  ⟨fun _ _ _ h1 h2 => le_trans h2 h1⟩

theorem filter_orderedInsert_conf (s : SubstitutionSuggestion)
    (l : List SubstitutionSuggestion) (c : Int) :
    (List.orderedInsert confGE s l).filter (fun t => decide (t.confidence = c)) =
      if s.confidence = c then
        s :: l.filter (fun t => decide (t.confidence = c))
      else l.filter (fun t => decide (t.confidence = c)) := by
  induction l with
  | nil => by_cases h : s.confidence = c <;> simp [List.orderedInsert, h]
  | cons x xs ih =>
    by_cases hr : confGE s x
    · by_cases h : s.confidence = c <;>
        by_cases hx : x.confidence = c <;>
          simp [List.orderedInsert, hr, h, hx, List.filter_cons]
    · have hlt : s.confidence < x.confidence := by
        have := lt_of_not_le (fun hle => hr hle)
        exact this
      by_cases h : s.confidence = c
      · have hx : ¬x.confidence = c := by
          rw [← h]
          exact (ne_of_gt hlt)
        simp [List.orderedInsert, hr, h, hx, ih, List.filter_cons]
      · by_cases hx : x.confidence = c <;>
          simp [List.orderedInsert, hr, h, hx, ih, List.filter_cons]

theorem filter_insertionSort_conf (l : List SubstitutionSuggestion) (c : Int) :
    (List.insertionSort confGE l).filter (fun t => decide (t.confidence = c)) =
      l.filter (fun t => decide (t.confidence = c)) := by
  induction l with
  | nil => rfl
  | cons x xs ih =>
    by_cases h : x.confidence = c <;>
      simp [List.insertionSort, filter_orderedInsert_conf, h, ih, List.filter_cons]

/-! ### Lemmas about the first-occurrence dedup -/

theorem mem_of_mem_dedupFirstAux :
    ∀ (l : List SubstitutionSuggestion) (seen : List String)
      (s : SubstitutionSuggestion), s ∈ dedupFirstAux seen l → s ∈ l := by
  intro l
  induction l with
  | nil => intro seen s h; simp [dedupFirstAux] at h
  | cons x xs ih =>
    intro seen s h
    by_cases hx : x.drug.id ∈ seen
    · simp only [dedupFirstAux, if_pos hx] at h
      exact List.mem_cons_of_mem _ (ih _ _ h)
    · simp only [dedupFirstAux, if_neg hx] at h
      rcases List.mem_cons.mp h with rfl | h
      · exact List.mem_cons_self _ _
      · exact List.mem_cons_of_mem _ (ih _ _ h)

theorem dedupFirstAux_spec :
    ∀ (l : List SubstitutionSuggestion) (seen : List String)
      (s : SubstitutionSuggestion), s ∈ dedupFirstAux seen l →
      s.drug.id ∉ seen ∧
        l.find? (fun x => decide (x.drug.id = s.drug.id)) = some s := by
  intro l
  induction l with
  | nil => intro seen s h; simp [dedupFirstAux] at h
  | cons x xs ih =>
    intro seen s h
    by_cases hx : x.drug.id ∈ seen
    · simp only [dedupFirstAux, if_pos hx] at h
      obtain ⟨hns, hfind⟩ := ih _ _ h
      have hne : ¬x.drug.id = s.drug.id := fun he => hns (he ▸ hx)
      refine ⟨hns, ?_⟩
      rw [List.find?_cons_of_neg _ (by simpa using hne), hfind]
    · simp only [dedupFirstAux, if_neg hx] at h
      rcases List.mem_cons.mp h with rfl | h
      · exact ⟨hx, by rw [List.find?_cons_of_pos _ (by simp)]⟩
      · obtain ⟨hns, hfind⟩ := ih _ _ h
        have hnsx : s.drug.id ∉ seen := fun hc => hns (List.mem_cons_of_mem _ hc)
        have hne : ¬x.drug.id = s.drug.id := fun he => hns (by
          rw [← he]; exact List.mem_cons_self _ _)
        refine ⟨hnsx, ?_⟩
        rw [List.find?_cons_of_neg _ (by simpa using hne), hfind]

theorem dedupFirstAux_ids_nodup :
    ∀ (l : List SubstitutionSuggestion) (seen : List String),
      ((dedupFirstAux seen l).map (fun s => s.drug.id)).Nodup := by
  intro l
  induction l with
  | nil => intro seen; simp [dedupFirstAux]
  | cons x xs ih =>
    intro seen
    by_cases hx : x.drug.id ∈ seen
    · simp only [dedupFirstAux, if_pos hx]
      exact ih _
    · simp only [dedupFirstAux, if_neg hx, List.map_cons, List.nodup_cons]
      refine ⟨?_, ih _⟩
      intro hmem
      obtain ⟨s, hs, hid⟩ := List.mem_map.mp hmem
      exact (dedupFirstAux_spec xs _ s hs).1 (hid ▸ List.mem_cons_self _ _)

/-! ### Every suggestion's drug comes from the search pool -/

theorem drug_mem_of_mem_exact {t : Drug} {pool : List Drug}
    {s : SubstitutionSuggestion} (hs : s ∈ exactSuggestions t pool) :
    s.drug ∈ pool := by
  obtain ⟨d, hd, rfl⟩ := List.mem_map.mp hs
  exact (List.mem_filter.mp hd).1

theorem drug_mem_of_mem_equivalent {t : Drug} {pool : List Drug}
    {s : SubstitutionSuggestion} (hs : s ∈ equivalentSuggestions t pool) :
    s.drug ∈ pool := by
  obtain ⟨d, hd, rfl⟩ := List.mem_map.mp hs
  exact (List.mem_filter.mp hd).1

theorem drug_mem_of_mem_similar {t : Drug} {pool : List Drug}
    {s : SubstitutionSuggestion} (hs : s ∈ similarSuggestions t pool) :
    s.drug ∈ pool := by
  obtain ⟨item, hitem, rfl⟩ := List.mem_map.mp hs
  have h1 := (List.mem_filter.mp hitem).1
  obtain ⟨d, hd, rfl⟩ := List.mem_map.mp h1
  exact (List.mem_filter.mp hd).1

theorem drug_mem_of_mem_rules {rules : List SubstitutionRule} {t : Drug}
    {pool : List Drug} {s : SubstitutionSuggestion}
    (hs : s ∈ applySubstitutionRules rules t pool) : s.drug ∈ pool := by
  unfold applySubstitutionRules at hs
  obtain ⟨inner, hinner, hsin⟩ := List.mem_flatten.mp hs
  obtain ⟨rule, _, rfl⟩ := List.mem_map.mp hinner
  obtain ⟨drugId, _, hmap⟩ := List.mem_filterMap.mp hsin
  obtain ⟨d, hfind, rfl⟩ := Option.map_eq_some'.mp hmap
  exact List.mem_of_find?_eq_some hfind

theorem id_ne_of_mem_searchPool {drugs : List Drug} {t : Drug} {avail : Bool}
    {d : Drug} (hd : d ∈ searchPool drugs t avail) : d.id ≠ t.id := by
  cases avail <;>
    simp only [searchPool, Bool.false_eq_true, if_false, if_true,
      List.mem_filter, Bool.and_eq_true, decide_eq_true_eq] at hd <;>
    tauto

theorem drug_mem_searchPool_of_mem_allPass {engine : SubstitutionEngine}
    {t : Drug} {avail : Bool} {s : SubstitutionSuggestion}
    (hs : s ∈ allPassSuggestions engine t avail) :
    s.drug ∈ searchPool engine.drugs t avail := by
  simp only [allPassSuggestions, List.append_assoc, List.mem_append] at hs
  rcases hs with h | h | h | h
  · exact drug_mem_of_mem_exact h
  · exact drug_mem_of_mem_equivalent h
  · exact drug_mem_of_mem_similar h
  · exact drug_mem_of_mem_rules h

theorem mem_allPass_of_mem_findSubstitutes {engine : SubstitutionEngine}
    {t : Drug} {avail : Bool} {s : SubstitutionSuggestion}
    (hs : s ∈ findSubstitutes engine t avail) :
    s ∈ dedupFirstAux [] (allPassSuggestions engine t avail) := by
  unfold findSubstitutes deduplicateAndSort at hs
  exact (List.mem_insertionSort confGE).mp hs

/-! ### Parsed strengths are non-negative -/

theorem numValue_nonneg (a b : List Char) : 0 ≤ numValue a b := by
  unfold numValue
  have h1 : (0 : ℚ) ≤ (digitsToNat a : ℚ) := by positivity
  have h2 : (0 : ℚ) ≤ (digitsToNat b : ℚ) / (10 : ℚ) ^ b.length := by positivity
  linarith

theorem applyUnit_nonneg (v : ℚ) (u : List Char) (hv : 0 ≤ v) :
    0 ≤ applyUnit v u := by
  unfold applyUnit
  split_ifs
  · exact mul_nonneg hv (by norm_num)
  · exact div_nonneg hv (by norm_num)
  · exact hv

theorem parseStrength_nonneg {d : String} {v : ℚ}
    (h : parseStrength d = some v) : 0 ≤ v := by
  unfold parseStrength at h
  obtain ⟨m, _, rfl⟩ := Option.map_eq_some'.mp h
  exact applyUnit_nonneg _ _ (numValue_nonneg _ _)

/-! ### The parser on the specification's sample dosage strings -/

theorem parseStrength_500mg : parseStrength "500mg" = some 500 := by
  have hscan : scanStrength "500mg".toList = some ⟨['5', '0', '0'], [], ['m', 'g']⟩ := by
    decide
  have hd : digitsToNat ['5', '0', '0'] = 500 := by decide
  have hd0 : digitsToNat ([] : List Char) = 0 := by decide
  have hu : ∀ v : ℚ, applyUnit v ['m', 'g'] = v := fun _ => rfl
  rw [parseStrength, hscan]
  norm_num [strengthValue, hu, numValue, hd, hd0]

theorem parseStrength_1g : parseStrength "1g" = some 1000 := by
  have hscan : scanStrength "1g".toList = some ⟨['1'], [], ['g']⟩ := by decide
  have hd : digitsToNat ['1'] = 1 := by decide
  have hd0 : digitsToNat ([] : List Char) = 0 := by decide
  have hu : ∀ v : ℚ, applyUnit v ['g'] = v * 1000 := fun _ => rfl
  rw [parseStrength, hscan]
  norm_num [strengthValue, hu, numValue, hd, hd0]

theorem parseStrength_50mcg : parseStrength "50mcg" = some (1 / 20 : ℚ) := by
  have hscan : scanStrength "50mcg".toList = some ⟨['5', '0'], [], ['m', 'c', 'g']⟩ := by
    decide
  have hd : digitsToNat ['5', '0'] = 50 := by decide
  have hd0 : digitsToNat ([] : List Char) = 0 := by decide
  have hu : ∀ v : ℚ, applyUnit v ['m', 'c', 'g'] = v / 1000 := fun _ => rfl
  rw [parseStrength, hscan]
  norm_num [strengthValue, hu, numValue, hd, hd0]

theorem parseStrength_5ml : parseStrength "5ml" = some 5 := by
  have hscan : scanStrength "5ml".toList = some ⟨['5'], [], ['m', 'l']⟩ := by decide
  have hd : digitsToNat ['5'] = 5 := by decide
  have hd0 : digitsToNat ([] : List Char) = 0 := by decide
  have hu : ∀ v : ℚ, applyUnit v ['m', 'l'] = v := fun _ => rfl
  rw [parseStrength, hscan]
  norm_num [strengthValue, hu, numValue, hd, hd0]

theorem parseStrength_asNeeded : parseStrength "as needed" = none := by decide

theorem parseStrength_0mg : parseStrength "0mg" = some 0 := by
  have hscan : scanStrength "0mg".toList = some ⟨['0'], [], ['m', 'g']⟩ := by decide
  have hd : digitsToNat ['0'] = 0 := by decide
  have hd0 : digitsToNat ([] : List Char) = 0 := by decide
  have hu : ∀ v : ℚ, applyUnit v ['m', 'g'] = v := fun _ => rfl
  rw [parseStrength, hscan]
  norm_num [strengthValue, hu, numValue, hd, hd0]

/-! ### Bounds for the confidence bonuses -/

theorem formBonus_bounds (t c : Drug) :
    0 ≤ formBonus t c ∧ formBonus t c ≤ 10 := by
  unfold formBonus
  split_ifs <;> norm_num

theorem brandBonus_bounds (t c : Drug) :
    0 ≤ brandBonus t c ∧ brandBonus t c ≤ 5 := by
  unfold brandBonus
  split_ifs <;> norm_num

theorem strengthBonus_bounds (t c : Drug) :
    0 ≤ strengthBonus t c ∧ strengthBonus t c ≤ 10 := by
  unfold strengthBonus
  rcases hp : parseStrength t.dosage with _ | a
  · norm_num
  · rcases hq : parseStrength c.dosage with _ | b
    · norm_num
    · have ha := parseStrength_nonneg hp
      have hb := parseStrength_nonneg hq
      dsimp only
      split_ifs with hab
      · have hapos : 0 < a := lt_of_le_of_ne ha (Ne.symm hab.1)
        have hmaxpos : 0 < max a b := lt_max_of_lt_left hapos
        have hratio0 : 0 ≤ min a b / max a b :=
          div_nonneg (le_min ha hb) (le_of_lt hmaxpos)
        have hratio1 : min a b / max a b ≤ 1 :=
          (div_le_one hmaxpos).mpr (min_le_max)
        constructor
        · exact Int.floor_nonneg.mpr (by nlinarith)
        · have h10 : min a b / max a b * 10 ≤ (10 : ℚ) := by nlinarith
          have := Int.floor_le_floor h10
          simpa using this
      · norm_num

theorem similarFormBonus_bounds (t c : Drug) :
    0 ≤ similarFormBonus t c ∧ similarFormBonus t c ≤ 20 := by
  unfold similarFormBonus
  split_ifs <;> norm_num

theorem similarNameBonus_bounds (t c : Drug) :
    0 ≤ similarNameBonus t c ∧ similarNameBonus t c ≤ 15 := by
  unfold similarNameBonus
  split_ifs <;> norm_num

/-- The source's guarded bonus agrees with the specification's unguarded
formula: when a parsed strength is `0`, the rational `min/max` ratio is `0`
(or `0/0`, which the field structure on `ℚ` also evaluates to `0`), so the
floored bonus the spec prescribes is `0` — exactly what the skipped branch
adds. -/
theorem strengthBonus_eq_spec (t c : Drug) :
    strengthBonus t c = specStrengthBonus t c := by
  unfold strengthBonus specStrengthBonus
  rcases hp : parseStrength t.dosage with _ | a
  · rfl
  · rcases hq : parseStrength c.dosage with _ | b
    · rfl
    · have ha := parseStrength_nonneg hp
      have hb := parseStrength_nonneg hq
      dsimp only
      split_ifs with hab
      · rfl
      · rw [Classical.not_and_iff_or_not_not] at hab
        rcases hab with h0 | h0 <;> rw [not_not] at h0 <;> subst h0
        · rw [min_eq_left hb]
          norm_num
        · rw [min_eq_right ha]
          norm_num

/-! ### The claims -/

/-- C1: for every target drug, candidate pool, rule set, and availableOnly
flag, no suggestion returned by `findSubstitutes` references the target
drug's own identifier; the target is excluded from the search pool
regardless of the flag, including from rule-based resolution (which only
resolves identifiers against the same pool). -/
theorem targetExcludedFromSuggestions (engine : SubstitutionEngine)
    (targetDrug : Drug) (availableOnly : Bool) (s : SubstitutionSuggestion)
    (hs : s ∈ findSubstitutes engine targetDrug availableOnly) :
    s.drug.id ≠ targetDrug.id :=
  id_ne_of_mem_searchPool (drug_mem_searchPool_of_mem_allPass
    (mem_of_mem_dedupFirstAux _ _ _ (mem_allPass_of_mem_findSubstitutes hs)))

/-- Witness for C1 at a concrete engine, target and suggestion. -/
theorem targetExcludedFromSuggestionsWitness :
    exExactSuggestion ∈ findSubstitutes exEngine exTarget true ∧
      exExactSuggestion.drug.id ≠ exTarget.id :=
  ⟨by decide,
    targetExcludedFromSuggestions exEngine exTarget true exExactSuggestion
      (by decide)⟩

/-- C2: each candidate drug identifier appears at most once in the returned
list, and every returned suggestion is the first entry bearing its
identifier in the four passes' concatenation (exact, equivalent, similar,
rule-based) — so a rule-based duplicate of a Pass-2 candidate is discarded
at merge time. -/
theorem outputIdsUniqueFirstWins (engine : SubstitutionEngine)
    (targetDrug : Drug) (availableOnly : Bool) :
    ((findSubstitutes engine targetDrug availableOnly).map
        (fun s => s.drug.id)).Nodup ∧
      ∀ s, s ∈ findSubstitutes engine targetDrug availableOnly →
        (allPassSuggestions engine targetDrug availableOnly).find?
            (fun x => decide (x.drug.id = s.drug.id)) = some s := by
  constructor
  · have hperm : List.Perm (findSubstitutes engine targetDrug availableOnly)
        (dedupFirstAux [] (allPassSuggestions engine targetDrug availableOnly)) := by
      unfold findSubstitutes deduplicateAndSort
      exact List.perm_insertionSort confGE _
    exact ((hperm.map (fun s => s.drug.id)).nodup_iff).mpr
      (dedupFirstAux_ids_nodup _ _)
  · intro s hs
    exact (dedupFirstAux_spec _ _ _ (mem_allPass_of_mem_findSubstitutes hs)).2

/-- Witness for C2: the returned exact suggestion is the first entry with
its identifier in the concatenated pass output. -/
theorem outputIdsUniqueFirstWinsWitness :
    (allPassSuggestions exEngine exTarget true).find?
        (fun x => decide (x.drug.id = exExactSuggestion.drug.id)) =
      some exExactSuggestion :=
  (outputIdsUniqueFirstWins exEngine exTarget true).2 exExactSuggestion
    (by decide)

/-- C3: the returned sequence is sorted by non-increasing confidence
(`confGE`), and for every confidence value the suggestions carrying it
appear in exactly their discovery order (the order of the deduplicated
concatenation), i.e. the sort is stable. -/
theorem outputSortedByConfidenceStable (engine : SubstitutionEngine)
    (targetDrug : Drug) (availableOnly : Bool) :
    List.Sorted confGE (findSubstitutes engine targetDrug availableOnly) ∧
      ∀ c : Int,
        (findSubstitutes engine targetDrug availableOnly).filter
            (fun s => decide (s.confidence = c)) =
          (dedupFirstAux []
              (allPassSuggestions engine targetDrug availableOnly)).filter
            (fun s => decide (s.confidence = c)) := by
  constructor
  · unfold findSubstitutes deduplicateAndSort
    exact List.sorted_insertionSort confGE _
  · intro c
    unfold findSubstitutes deduplicateAndSort
    exact filter_insertionSort_conf _ c

/-- C4: the checked entry point fails with `InvalidInput` exactly when the
target is missing, a present target never raises an error, and an empty
candidate catalog (hence "no matches") yields the empty sequence as an
ordinary result. -/
theorem invalidInputIffMissingTarget (engine : SubstitutionEngine)
    (target : Option Drug) (avail : Bool) (t : Drug)
    (rules : List SubstitutionRule) :
    (findSubstitutesChecked engine target avail =
          Except.error EngineError.invalidInput ↔ target = none) ∧
      findSubstitutesChecked engine (some t) avail =
        Except.ok (findSubstitutes engine t avail) ∧
      findSubstitutes { drugs := [], substitutionRules := rules } t avail = [] := by
  refine ⟨?_, rfl, ?_⟩
  · cases target <;> simp [findSubstitutesChecked]
  · have hpool : searchPool ([] : List Drug) t avail = [] := by
      cases avail <;> rfl
    have hrules : applySubstitutionRules rules t [] = [] := by
      unfold applySubstitutionRules
      rw [List.flatten_eq_nil_iff]
      intro l hl
      obtain ⟨rule, _, rfl⟩ := List.mem_map.mp hl
      rw [List.filterMap_eq_nil_iff]
      intro a _
      rfl
    have hall : allPassSuggestions { drugs := [], substitutionRules := rules }
        t avail = [] := by
      simp only [allPassSuggestions]
      rw [hpool]
      simp [exactSuggestions, equivalentSuggestions, equivalentMatches,
        similarSuggestions, findSimilarByTherapeuticClass, hrules]
    unfold findSubstitutes deduplicateAndSort
    rw [hall]
    rfl

/-- C5: the equivalent-match confidence equals the spec's formula
`min(90, 80 + form bonus + floor(min(a,b)/max(a,b)*10) + brand bonus)`
and always lies within `[80, 90]`. -/
theorem equivalentConfidenceFormulaAndRange (t c : Drug) :
    calculateEquivalentConfidence t c =
        min 90 (80 + formBonus t c + specStrengthBonus t c + brandBonus t c) ∧
      80 ≤ calculateEquivalentConfidence t c ∧
      calculateEquivalentConfidence t c ≤ 90 := by
  have hf := formBonus_bounds t c
  have hs := strengthBonus_bounds t c
  have hb := brandBonus_bounds t c
  refine ⟨?_, ?_, ?_⟩
  · unfold calculateEquivalentConfidence
    rw [strengthBonus_eq_spec, min_comm]
  · unfold calculateEquivalentConfidence
    exact le_min (by omega) (by omega)
  · exact min_le_right _ _

/-- C6: every Pass-3 suggestion has match type `similar`, carries exactly
the fixed single warning, scores `min(40 + 20? + 15?, 75)`, and its
confidence lies within `[30, 75]` (the `>= 30` threshold never readmits a
lower score since the base alone is 40). -/
theorem similarSuggestionShapeAndRange (t : Drug) (pool : List Drug)
    (s : SubstitutionSuggestion) (hs : s ∈ similarSuggestions t pool) :
    s.matchType = MatchType.similar ∧
      s.warnings =
        some ["Different active molecule - consult pharmacist before substitution"] ∧
      s.confidence =
        min (40 + similarFormBonus t s.drug + similarNameBonus t s.drug) 75 ∧
      30 ≤ s.confidence ∧ s.confidence ≤ 75 := by
  obtain ⟨item, hitem, rfl⟩ := List.mem_map.mp hs
  have h1 := (List.mem_filter.mp hitem).1
  obtain ⟨d, hd, rfl⟩ := List.mem_map.mp h1
  have hf := similarFormBonus_bounds t d
  have hn := similarNameBonus_bounds t d
  refine ⟨rfl, rfl, rfl, ?_, ?_⟩
  · show (30 : Int) ≤ calculateTherapeuticSimilarity t d
    unfold calculateTherapeuticSimilarity
    exact le_min (by omega) (by omega)
  · show calculateTherapeuticSimilarity t d ≤ 75
    exact min_le_right _ _

/-- Witness for C6 at a concrete Pass-3 suggestion. -/
theorem similarSuggestionShapeAndRangeWitness :
    exSimilarSuggestion.matchType = MatchType.similar ∧
      exSimilarSuggestion.warnings =
        some ["Different active molecule - consult pharmacist before substitution"] ∧
      exSimilarSuggestion.confidence =
        min (40 + similarFormBonus exTarget exSimilarSuggestion.drug +
          similarNameBonus exTarget exSimilarSuggestion.drug) 75 ∧
      30 ≤ exSimilarSuggestion.confidence ∧ exSimilarSuggestion.confidence ≤ 75 :=
  similarSuggestionShapeAndRange exTarget [simCandidate] exSimilarSuggestion
    (by decide)

/-- C7: the strength parser's concrete values, and a parse failure on
either side skips the strength bonus and the dosage adjustment for that
pair while the equivalent pass still emits the suggestion. -/
theorem strengthParserExamplesAndSkip :
    parseStrength "500mg" = some 500 ∧
      parseStrength "1g" = some 1000 ∧
      parseStrength "50mcg" = some (1 / 20 : ℚ) ∧
      parseStrength "5ml" = some 5 ∧
      parseStrength "as needed" = none ∧
      (∀ t c : Drug,
        parseStrength t.dosage = none ∨ parseStrength c.dosage = none →
          calculateEquivalentConfidence t c =
              min (80 + formBonus t c + brandBonus t c) 90 ∧
            calculateDosageAdjustment t c = none) ∧
      ∀ (t : Drug) (pool : List Drug) (c : Drug),
        c ∈ equivalentMatches t pool →
          mkEquivalentSuggestion t c ∈ equivalentSuggestions t pool := by
  refine ⟨parseStrength_500mg, parseStrength_1g, parseStrength_50mcg,
    parseStrength_5ml, parseStrength_asNeeded, ?_, ?_⟩
  · intro t c h
    have hsb : strengthBonus t c = 0 := by
      unfold strengthBonus
      cases hp : parseStrength t.dosage with
      | none => rfl
      | some a =>
        cases hq : parseStrength c.dosage with
        | none => rfl
        | some b =>
          rcases h with h | h
          · rw [hp] at h; exact absurd h (by simp)
          · rw [hq] at h; exact absurd h (by simp)
    have hadj : calculateDosageAdjustment t c = none := by
      unfold calculateDosageAdjustment
      cases hp : parseStrength t.dosage with
      | none => rfl
      | some a =>
        cases hq : parseStrength c.dosage with
        | none => rfl
        | some b =>
          rcases h with h | h
          · rw [hp] at h; exact absurd h (by simp)
          · rw [hq] at h; exact absurd h (by simp)
    refine ⟨?_, hadj⟩
    unfold calculateEquivalentConfidence
    rw [hsb, add_zero]
  · intro t pool c hc
    exact List.mem_map.mpr ⟨c, hc, rfl⟩

/-- Witness for C7: an unparsable target dosage at concrete drugs. -/
theorem strengthParserExamplesAndSkipWitness :
    (calculateEquivalentConfidence adhocTarget exCandidate =
        min (80 + formBonus adhocTarget exCandidate +
          brandBonus adhocTarget exCandidate) 90 ∧
      calculateDosageAdjustment adhocTarget exCandidate = none) ∧
      mkEquivalentSuggestion adhocTarget exCandidate ∈
        equivalentSuggestions adhocTarget [exCandidate] :=
  ⟨strengthParserExamplesAndSkip.2.2.2.2.2.1 adhocTarget exCandidate
      (Or.inl (by decide)),
    strengthParserExamplesAndSkip.2.2.2.2.2.2 adhocTarget [exCandidate]
      exCandidate (by decide)⟩

/-- C8: a dosage parsing to strength `0` (such as "0mg") is treated exactly
like a parse failure — the strength bonus and the adjustment string are
skipped — so the ratio divisions never see a zero divisor and every
confidence is a well-defined integer. -/
theorem zeroStrengthTreatedAsParseFailure :
    parseStrength "0mg" = some 0 ∧
      ∀ t c : Drug,
        parseStrength t.dosage = some 0 ∨ parseStrength c.dosage = some 0 →
          calculateEquivalentConfidence t c =
              min (80 + formBonus t c + brandBonus t c) 90 ∧
            calculateDosageAdjustment t c = none := by
  refine ⟨parseStrength_0mg, ?_⟩
  intro t c h
  have hsb : strengthBonus t c = 0 := by
    unfold strengthBonus
    cases hp : parseStrength t.dosage with
    | none => rfl
    | some a =>
      cases hq : parseStrength c.dosage with
      | none => rfl
      | some b =>
        dsimp only
        rcases h with h | h
        · rw [hp] at h
          injection h with h0
          simp [h0]
        · rw [hq] at h
          injection h with h0
          simp [h0]
  have hadj : calculateDosageAdjustment t c = none := by
    unfold calculateDosageAdjustment
    cases hp : parseStrength t.dosage with
    | none => rfl
    | some a =>
      cases hq : parseStrength c.dosage with
      | none => rfl
      | some b =>
        dsimp only
        rcases h with h | h
        · rw [hp] at h
          injection h with h0
          simp [h0]
        · rw [hq] at h
          injection h with h0
          simp [h0]
  refine ⟨?_, hadj⟩
  unfold calculateEquivalentConfidence
  rw [hsb, add_zero]

/-- Witness for C8: the "0mg" dosage at concrete drugs. -/
theorem zeroStrengthTreatedAsParseFailureWitness :
    calculateEquivalentConfidence zeroTarget exCandidate =
        min (80 + formBonus zeroTarget exCandidate +
          brandBonus zeroTarget exCandidate) 90 ∧
      calculateDosageAdjustment zeroTarget exCandidate = none :=
  zeroStrengthTreatedAsParseFailure.2 zeroTarget exCandidate
    (Or.inl parseStrength_0mg)

/-- C9: `updateData` replaces both the catalog and the rule set; with the
rules argument left to its default the rule set becomes empty, the
rule-based pass of subsequent calls produces nothing, and `findSubstitutes`
behaves as on an engine constructed with no rules. -/
theorem updateDataResetsRules (engine : SubstitutionEngine) (ds : List Drug)
    (t : Drug) (pool : List Drug) (avail : Bool) :
    (updateData engine ds).substitutionRules = [] ∧
      (updateData engine ds).drugs = ds ∧
      applySubstitutionRules (updateData engine ds).substitutionRules t pool = [] ∧
      findSubstitutes (updateData engine ds) t avail =
        findSubstitutes { drugs := ds } t avail :=
  ⟨rfl, rfl, rfl, rfl⟩

/-- C10: a generic name with no letters cleans to the empty string, whose
four-character prefix is contained in every string, so the name-similarity
helper accepts every counterpart and Pass 3 always grants the `+15`
bonus for such a pair. -/
theorem emptyCleanNameGivesSimilar :
    (∀ name1 name2 : String,
        cleanName name1 = [] ∨ cleanName name2 = [] →
          haveSimilarNames name1 name2 = true) ∧
      ∀ t c : Drug,
        cleanName t.genericName = [] ∨ cleanName c.genericName = [] →
          calculateTherapeuticSimilarity t c =
            min (40 + similarFormBonus t c + 15) 75 := by
  have hnil : ∀ s : List Char, containsSub s [] = true := by
    intro s
    cases s <;> rfl
  have hsim : ∀ name1 name2 : String,
      cleanName name1 = [] ∨ cleanName name2 = [] →
        haveSimilarNames name1 name2 = true := by
    intro n1 n2 h
    unfold haveSimilarNames
    rcases h with h | h <;> rw [h] <;> simp [hnil]
  refine ⟨hsim, ?_⟩
  intro t c h
  unfold calculateTherapeuticSimilarity similarNameBonus
  rw [hsim _ _ h]
  simp

/-- Witness for C10: a digits-only generic name at concrete inputs. -/
theorem emptyCleanNameGivesSimilarWitness :
    haveSimilarNames "123" "g" = true ∧
      calculateTherapeuticSimilarity noLetterTarget exCandidate =
        min (40 + similarFormBonus noLetterTarget exCandidate + 15) 75 :=
  ⟨emptyCleanNameGivesSimilar.1 "123" "g" (Or.inl (by decide)),
    emptyCleanNameGivesSimilar.2 noLetterTarget exCandidate
      (Or.inl (by decide))⟩

end SubstitutionEngineModel
